import Mathlib

/-!
# Worker model handlers of `engine/api/worker_model.go`

A shallow embedding of the HTTP handlers of the worker model API.  Every
handler is a function from its collaborators (`Deps`), the caller context
(`Ctx`) and the request (`Request`) to an `Outcome`: the ordered list of calls
the handler made to the store, the cache and the response writer, together
with the Go `error` it returned (`none` is `nil`).

Go functions returning `(T, error)` are `Except Error T`; Go functions
returning only `error` are `Option Error`.
-/

namespace CDS

/-! ## Data model -/

/-- Modelled from the spec: the error values of the `sdk` package are not in
the source file; the classes are the two the handlers name
(`ErrWorkerModelNoPattern`, `ErrWrongRequest`) and the permission, not found
and infrastructure classes of the error taxonomy. -/
inductive ErrKind
  | ErrWorkerModelNoPattern
  | ErrWrongRequest
  | ErrForbidden
  | ErrNotFound
  | ErrUnknown
  deriving DecidableEq, Repr

/-- Modelled from the spec: the `sdk` error type is not in the source file;
an error is its class and the stack of messages attached to it. -/
structure Error where
  kind : ErrKind
  msgs : List String
  deriving DecidableEq, Repr

/-- Modelled from the spec: `sdk.NewErrorFrom` is not in the source file;
`sdk.NewErrorFrom(err, msg)` is an error of the class of `err` that carries
`msg`. -/
def NewErrorFrom (k : ErrKind) (msg : String) : Error :=
  { kind := k, msgs := [msg] }

/-- Modelled from the spec: `sdk.WrapError` is not in the source file;
`sdk.WrapError(err, msg)` is `err`, of the same class, with `msg` added. -/
def WrapError (err : Error) (msg : String) : Error :=
  { err with msgs := msg :: err.msgs }

/-- Modelled from the spec: the declaration of `sdk.Group` is not in the
source file; a group has an id (read by the handlers as `g.ID`) and a name. -/
structure Group where
  ID : Int
  Name : String
  deriving DecidableEq, Repr

/-- Modelled from the spec: the type specific data of `sdk.Model` are not in
the source file; they are reduced to the image reference of the execution
backend. -/
structure TypeData where
  Image : String
  deriving DecidableEq, Repr

/-- Modelled from the spec: the declaration of `sdk.Model` is not in the
source file.  The handlers read and write `ID`, `Restricted`, `Provision`,
`PatternName` and `Editable`; `Name`, `GroupID`, `Type_` (the Go field
`Type`) and `TypeData` are the fields of the data model that the validators
and `CopyModelTypeData` work on. -/
structure Model where
  ID : Int
  Name : String
  GroupID : Int
  Type_ : String
  TypeData : TypeData
  PatternName : String
  Restricted : Bool
  Provision : Int
  Editable : Bool
  deriving DecidableEq, Repr

/-- Modelled from the spec: the declaration of `sdk.Pipeline` is not in the
source file; a consuming pipeline is reduced to its identity. -/
structure Pipeline where
  ID : Int
  Name : String
  deriving DecidableEq, Repr

/-- Modelled from the spec: the declaration of `workermodel.LoadFilter` is
not in the source file; the handler sets its fields `Binary` and `State`. -/
structure LoadFilter where
  Binary : String
  State : String
  deriving DecidableEq, Repr

/-- The API consumer of a request, `getAPIConsumer(ctx)`; `Groups` is what
`GetGroups()` returns. -/
structure Consumer where
  Groups : List Group
  deriving DecidableEq, Repr

/-- The caller context `ctx` as the handlers observe it: the results of
`isAdmin(ctx)`, `isMaintainer(ctx)`, `isGroupAdmin(ctx, g)`,
`isGroupMember(ctx, g)` and `getAPIConsumer(ctx)`. -/
structure Ctx where
  isAdmin : Bool
  isMaintainer : Bool
  isGroupAdmin : Group → Bool
  isGroupMember : Group → Bool
  consumer : Consumer

/-- The request `r` as the handlers observe it: the route variables
(`mux.Vars(r)`), the result of `service.UnmarshalBody(r, &data)`, the result
of `requestVarInt(r, "groupID")`, the result of `r.ParseForm()` and the form
values (`r.FormValue`). -/
structure Request where
  vars : String → String
  body : Except Error Model
  groupID : Except Error Int
  ParseForm : Option Error
  FormValue : String → String

/-- What a handler passes to `service.WriteJSON`. -/
inductive Payload
  | model (m : Model)
  | models (ms : List Model)
  | pipelines (ps : List Pipeline)
  deriving DecidableEq, Repr

/-- A call made by a handler to the store, the cache or the response writer,
with the arguments of the call. -/
inductive Event
  | LoadGroup (name : String)
  | LoadGroupByID (id : Int)
  | LoadByNameAndGroupID (name : String) (groupID : Int)
  | LoadByNameAndGroupIDWithClearPassword (name : String) (groupID : Int)
  | LoadByID (id : Int)
  | Begin
  | Create (data : Model)
  | Update (old data : Model)
  | Delete (id : Int)
  | Commit
  | Rollback
  | CacheDeleteAll (key : String)
  | LoadAll (filter : LoadFilter)
  | LoadAllByGroupIDs (groupIDs : List Int) (filter : LoadFilter)
  | LoadByWorkerModel (m : Model)
  | LoadByWorkerModelAndGroupIDs (m : Model) (groupIDs : List Int)
  | LoadAllActiveAndNotDeprecatedForGroupIDs (groupIDs : List Int)
  | WriteJSON (p : Payload) (status : Nat)
  deriving DecidableEq, Repr

/-- The collaborators of the handlers, none of which is defined in
`worker_model.go`: the validators of `sdk.Model`, the `workermodel`, `group`
and `pipeline` packages, the database handle and the response writer.  Each
field gives the result of the corresponding Go call. -/
structure Deps where
  IsValid : Model → Option Error
  IsValidType : Model → Option Error
  StateFilterIsValid : String → Option Error
  CopyModelTypeData : Model → Model → Except Error Model
  Begin : Option Error
  Commit : Option Error
  Create : Model → Consumer → Except Error Model
  Update : Model → Model → Except Error Model
  Delete : Int → Option Error
  LoadByID : Int → Except Error Model
  LoadByNameAndGroupID : String → Int → Except Error Model
  LoadByNameAndGroupIDWithClearPassword : String → Int → Except Error Model
  LoadGroup : String → Except Error Group
  LoadGroupByID : Int → Except Error Group
  SharedInfraGroup : Group
  LoadAll : LoadFilter → Except Error (List Model)
  LoadAllByGroupIDs : List Int → LoadFilter → Except Error (List Model)
  LoadByWorkerModel : Model → Except Error (List Pipeline)
  LoadByWorkerModelAndGroupIDs : Model → List Int → Except Error (List Pipeline)
  LoadAllActiveAndNotDeprecatedForGroupIDs : List Int → Except Error (List Model)
  WriteJSON : Payload → Nat → Option Error

/-- The observable behaviour of one handler run: the calls it made, in order,
and the error it returned. -/
structure Outcome where
  events : List Event
  err : Option Error
  deriving DecidableEq, Repr

/-- The cache key `cache.Key("api:workermodels:*")`. -/
def workerModelsKey : String := "api:workermodels:*"

/-- Go `http.StatusOK`. -/
def StatusOK : Nat := 200

/-! ## Handlers -/

/-- The handler `postWorkerModelHandler`.  The deferred `tx.Rollback()` runs
at every return that follows a successful `Begin`. -/
def postWorkerModelHandler (deps : Deps) (ctx : Ctx) (r : Request) : Outcome :=
  match r.body with
  | .error err => ⟨[], some err⟩
  | .ok data =>
    match deps.IsValid data with
    | some err => ⟨[], some err⟩
    | none =>
      match deps.IsValidType data with
      | some err => ⟨[], some err⟩
      | none =>
        let checked : Except Error Model :=
          if !ctx.isAdmin then
            let data := if !data.Restricted then { data with Provision := 0 } else data
            if !data.Restricted && data.PatternName == "" then
              .error (NewErrorFrom .ErrWorkerModelNoPattern "missing model pattern name")
            else .ok data
          else .ok data
        match checked with
        | .error err => ⟨[], some err⟩
        | .ok data =>
          match deps.Begin with
          | some err => ⟨[.Begin], some (WrapError err "cannot begin transaction")⟩
          | none =>
            match deps.Create data ctx.consumer with
            | .error err => ⟨[.Begin, .Create data, .Rollback], some err⟩
            | .ok model =>
              match deps.Commit with
              | some err =>
                ⟨[.Begin, .Create data, .Commit, .Rollback],
                  some (WrapError err "unable to commit transaction")⟩
              | none =>
                match deps.LoadByID model.ID with
                | .error err =>
                  ⟨[.Begin, .Create data, .Commit, .CacheDeleteAll workerModelsKey,
                    .LoadByID model.ID, .Rollback], some err⟩
                | .ok new =>
                  let new := { new with Editable := true }
                  ⟨[.Begin, .Create data, .Commit, .CacheDeleteAll workerModelsKey,
                    .LoadByID model.ID, .WriteJSON (.model new) StatusOK, .Rollback],
                    deps.WriteJSON (.model new) StatusOK⟩

/-- The handler `putWorkerModelHandler`.  The deferred `tx.Rollback()` runs at
every return that follows a successful `Begin`. -/
def putWorkerModelHandler (deps : Deps) (ctx : Ctx) (r : Request) : Outcome :=
  let groupName := r.vars "permGroupName"
  let modelName := r.vars "permModelName"
  match deps.LoadGroup groupName with
  | .error err => ⟨[.LoadGroup groupName], some err⟩
  | .ok g =>
    let pre : List Event :=
      [.LoadGroup groupName, .LoadByNameAndGroupIDWithClearPassword modelName g.ID]
    match deps.LoadByNameAndGroupIDWithClearPassword modelName g.ID with
    | .error errLoad => ⟨pre, some (WrapError errLoad "cannot load worker model")⟩
    | .ok old =>
      match r.body with
      | .error err => ⟨pre, some err⟩
      | .ok data =>
        match deps.IsValid data with
        | some err => ⟨pre, some err⟩
        | none =>
          let copied : Except Error Model :=
            if !ctx.isAdmin then
              let data := if !data.Restricted then { data with Provision := 0 } else data
              deps.CopyModelTypeData old data
            else .ok data
          match copied with
          | .error err => ⟨pre, some err⟩
          | .ok data =>
            match deps.IsValidType data with
            | some err => ⟨pre, some err⟩
            | none =>
              match deps.Begin with
              | some err => ⟨pre ++ [.Begin], some (WrapError err "cannot begin transaction")⟩
              | none =>
                match deps.Update old data with
                | .error err => ⟨pre ++ [.Begin, .Update old data, .Rollback], some err⟩
                | .ok model =>
                  match deps.Commit with
                  | some err =>
                    ⟨pre ++ [.Begin, .Update old data, .Commit, .Rollback],
                      some (WrapError err "unable to commit transaction")⟩
                  | none =>
                    match deps.LoadByID model.ID with
                    | .error err =>
                      ⟨pre ++ [.Begin, .Update old data, .Commit,
                        .CacheDeleteAll workerModelsKey, .LoadByID model.ID, .Rollback],
                        some err⟩
                    | .ok new =>
                      let new := { new with Editable := true }
                      ⟨pre ++ [.Begin, .Update old data, .Commit,
                        .CacheDeleteAll workerModelsKey, .LoadByID model.ID,
                        .WriteJSON (.model new) StatusOK, .Rollback],
                        deps.WriteJSON (.model new) StatusOK⟩

/-- The handler `deleteWorkerModelHandler`.  It defers no `tx.Rollback()`. -/
def deleteWorkerModelHandler (deps : Deps) (_ctx : Ctx) (r : Request) : Outcome :=
  let groupName := r.vars "permGroupName"
  let modelName := r.vars "permModelName"
  match deps.LoadGroup groupName with
  | .error err => ⟨[.LoadGroup groupName], some err⟩
  | .ok g =>
    let pre : List Event := [.LoadGroup groupName, .LoadByNameAndGroupID modelName g.ID]
    match deps.LoadByNameAndGroupID modelName g.ID with
    | .error err => ⟨pre, some (WrapError err "cannot load worker model")⟩
    | .ok m =>
      match deps.Begin with
      | some err => ⟨pre ++ [.Begin], some (WrapError err "cannot start transaction")⟩
      | none =>
        match deps.Delete m.ID with
        | some err =>
          ⟨pre ++ [.Begin, .Delete m.ID], some (WrapError err "cannot delete worker model")⟩
        | none =>
          match deps.Commit with
          | some err =>
            ⟨pre ++ [.Begin, .Delete m.ID, .Commit],
              some (WrapError err "Cannot commit transaction")⟩
          | none =>
            ⟨pre ++ [.Begin, .Delete m.ID, .Commit, .CacheDeleteAll workerModelsKey], none⟩

/-- The handler `getWorkerModelHandler`. -/
def getWorkerModelHandler (deps : Deps) (ctx : Ctx) (r : Request) : Outcome :=
  let groupName := r.vars "permGroupName"
  let modelName := r.vars "permModelName"
  match deps.LoadGroup groupName with
  | .error err => ⟨[.LoadGroup groupName], some err⟩
  | .ok g =>
    let pre : List Event := [.LoadGroup groupName, .LoadByNameAndGroupID modelName g.ID]
    match deps.LoadByNameAndGroupID modelName g.ID with
    | .error err => ⟨pre, some (WrapError err "cannot load worker model")⟩
    | .ok m =>
      let m := if ctx.isGroupAdmin g || ctx.isAdmin then { m with Editable := true } else m
      ⟨pre ++ [.WriteJSON (.model m) StatusOK], deps.WriteJSON (.model m) StatusOK⟩

/-- Modelled from the spec: `sdk.GroupsToIDs` is not in the source file; it
gives the ids of the given groups, in order. -/
def GroupsToIDs (gs : List Group) : List Int :=
  gs.map (fun g => g.ID)

/-- The handler `getWorkerModelsHandler`. -/
def getWorkerModelsHandler (deps : Deps) (ctx : Ctx) (r : Request) : Outcome :=
  match r.ParseForm with
  | some _ => ⟨[], some (WrapError ⟨.ErrWrongRequest, []⟩ "cannot parse form")⟩
  | none =>
    let filter : LoadFilter := { Binary := "", State := "" }
    let binary := r.FormValue "binary"
    let filter := if binary != "" then { filter with Binary := binary } else filter
    let stateString := r.FormValue "state"
    let checked : Except Error LoadFilter :=
      if stateString != "" then
        match deps.StateFilterIsValid stateString with
        | some err => .error err
        | none => .ok { filter with State := stateString }
      else .ok filter
    match checked with
    | .error err => ⟨[], some err⟩
    | .ok filter =>
      if ctx.isMaintainer || ctx.isAdmin then
        match deps.LoadAll filter with
        | .error err => ⟨[.LoadAll filter], some (WrapError err "cannot load worker models")⟩
        | .ok models =>
          ⟨[.LoadAll filter, .WriteJSON (.models models) StatusOK],
            deps.WriteJSON (.models models) StatusOK⟩
      else
        let groupIDs := GroupsToIDs ctx.consumer.Groups ++ [deps.SharedInfraGroup.ID]
        match deps.LoadAllByGroupIDs groupIDs filter with
        | .error err =>
          ⟨[.LoadAllByGroupIDs groupIDs filter],
            some (WrapError err "cannot load worker models")⟩
        | .ok models =>
          ⟨[.LoadAllByGroupIDs groupIDs filter, .WriteJSON (.models models) StatusOK],
            deps.WriteJSON (.models models) StatusOK⟩

/-- The handler `getWorkerModelUsageHandler`. -/
def getWorkerModelUsageHandler (deps : Deps) (ctx : Ctx) (r : Request) : Outcome :=
  let groupName := r.vars "permGroupName"
  let modelName := r.vars "permModelName"
  match deps.LoadGroup groupName with
  | .error err => ⟨[.LoadGroup groupName], some err⟩
  | .ok g =>
    let pre : List Event := [.LoadGroup groupName, .LoadByNameAndGroupID modelName g.ID]
    match deps.LoadByNameAndGroupID modelName g.ID with
    | .error err => ⟨pre, some (WrapError err "cannot load worker model")⟩
    | .ok m =>
      if ctx.isMaintainer || ctx.isAdmin then
        match deps.LoadByWorkerModel m with
        | .error err =>
          ⟨pre ++ [.LoadByWorkerModel m],
            some (WrapError err "cannot load pipelines linked to worker model")⟩
        | .ok pips =>
          ⟨pre ++ [.LoadByWorkerModel m, .WriteJSON (.pipelines pips) StatusOK],
            deps.WriteJSON (.pipelines pips) StatusOK⟩
      else
        let groupIDs := GroupsToIDs ctx.consumer.Groups ++ [deps.SharedInfraGroup.ID]
        match deps.LoadByWorkerModelAndGroupIDs m groupIDs with
        | .error err =>
          ⟨pre ++ [.LoadByWorkerModelAndGroupIDs m groupIDs],
            some (WrapError err "cannot load pipelines linked to worker model")⟩
        | .ok pips =>
          ⟨pre ++ [.LoadByWorkerModelAndGroupIDs m groupIDs,
            .WriteJSON (.pipelines pips) StatusOK],
            deps.WriteJSON (.pipelines pips) StatusOK⟩

/-- The handler `getWorkerModelsForGroupHandler`.  After the group is loaded
`err` is `nil`, so the `return err` of the membership branch returns `nil`. -/
def getWorkerModelsForGroupHandler (deps : Deps) (ctx : Ctx) (r : Request) : Outcome :=
  match r.groupID with
  | .error err => ⟨[], some err⟩
  | .ok groupID =>
    match deps.LoadGroupByID groupID with
    | .error err => ⟨[.LoadGroupByID groupID], some err⟩
    | .ok g =>
      if ctx.isGroupMember g || ctx.isAdmin then
        ⟨[.LoadGroupByID groupID], none⟩
      else
        let groupIDs := [g.ID, deps.SharedInfraGroup.ID]
        match deps.LoadAllActiveAndNotDeprecatedForGroupIDs groupIDs with
        | .error err =>
          ⟨[.LoadGroupByID groupID, .LoadAllActiveAndNotDeprecatedForGroupIDs groupIDs],
            some err⟩
        | .ok wms =>
          ⟨[.LoadGroupByID groupID, .LoadAllActiveAndNotDeprecatedForGroupIDs groupIDs,
            .WriteJSON (.models wms) StatusOK],
            deps.WriteJSON (.models wms) StatusOK⟩

/-! ## Collaborators modelled from the specification

The validators of `sdk.Model` and `workermodel.CopyModelTypeData` are defined
outside `worker_model.go`.  The definitions below follow the specification
and serve as the concrete collaborators of `specDeps`. -/

/-- Modelled from the spec: the table `sdk.AvailableWorkerModelType` is not in
the source file; the closed enumeration of execution backends, with the two
backends the specification names. -/
def AvailableWorkerModelType : List String := ["docker", "vsphere"]

/-- Modelled from the spec: `sdk.Model.IsValid` is not in the source file;
structural validation rejects a definition with a missing name, a missing or
unknown type, or a malformed group reference. -/
def IsValid (m : Model) : Option Error :=
  if m.Name == "" then some (NewErrorFrom .ErrWrongRequest "invalid worker model name")
  else if !AvailableWorkerModelType.contains m.Type_ then
    some (NewErrorFrom .ErrWrongRequest "invalid worker model type")
  else if m.GroupID == 0 then some (NewErrorFrom .ErrWrongRequest "missing worker model group")
  else none

/-- Modelled from the spec: `sdk.Model.IsValidType` is not in the source file;
type validation rejects a definition whose type specific required data (the
image reference) is absent or empty. -/
def IsValidType (m : Model) : Option Error :=
  if m.TypeData.Image == "" then some (NewErrorFrom .ErrWrongRequest "invalid worker image")
  else none

/-- Modelled from the spec: `workermodel.CopyModelTypeData` is not in the
source file; it copies the type classification data (the type and its type
specific data) from the existing model onto the incoming definition and
leaves every other field of the incoming definition as submitted. -/
def CopyModelTypeData (old data : Model) : Except Error Model :=
  .ok { data with Type_ := old.Type_, TypeData := old.TypeData }

/-- A stored docker model of group 1, used as the content of the store of
`specDeps`. -/
def storedModel : Model :=
  { ID := 7, Name := "m2", GroupID := 1, Type_ := "docker", TypeData := ⟨"debian:9"⟩,
    PatternName := "", Restricted := true, Provision := 3, Editable := false }

/-- Concrete collaborators: the validators and the copy modelled from the
specification, and a store that holds `storedModel` in group 1 and in which
every operation succeeds. -/
def specDeps : Deps where
  IsValid := IsValid
  IsValidType := IsValidType
  StateFilterIsValid := fun s =>
    if s == "disabled" || s == "error" || s == "register" || s == "deprecated"
        || s == "active" || s == "official" then none
    else some (NewErrorFrom .ErrWrongRequest "invalid given state filter")
  CopyModelTypeData := CopyModelTypeData
  Begin := none
  Commit := none
  Create := fun data _ => .ok { data with ID := 8 }
  Update := fun old data => .ok { data with ID := old.ID }
  Delete := fun _ => none
  LoadByID := fun id => .ok { storedModel with ID := id }
  LoadByNameAndGroupID := fun name groupID =>
    .ok { storedModel with Name := name, GroupID := groupID }
  LoadByNameAndGroupIDWithClearPassword := fun name groupID =>
    .ok { storedModel with Name := name, GroupID := groupID }
  LoadGroup := fun name => .ok { ID := 1, Name := name }
  LoadGroupByID := fun id => .ok { ID := id, Name := "G1" }
  SharedInfraGroup := { ID := 100, Name := "shared.infra" }
  LoadAll := fun _ => .ok [storedModel]
  LoadAllByGroupIDs := fun groupIDs _ =>
    .ok (if groupIDs.contains storedModel.GroupID then [storedModel] else [])
  LoadByWorkerModel := fun _ => .ok []
  LoadByWorkerModelAndGroupIDs := fun _ _ => .ok []
  LoadAllActiveAndNotDeprecatedForGroupIDs := fun groupIDs =>
    .ok (if groupIDs.contains storedModel.GroupID then [storedModel] else [])
  WriteJSON := fun _ _ => none

/-- The collaborators of `specDeps` with a store whose `workermodel.Delete`
fails. -/
def failingDeleteDeps : Deps :=
  { specDeps with Delete := fun _ => some (NewErrorFrom .ErrUnknown "delete failed") }

/-- The collaborators of `specDeps` with a store whose commit fails. -/
def failingCommitDeps : Deps :=
  { specDeps with Commit := some (NewErrorFrom .ErrUnknown "commit failed") }

/-- The collaborators of `specDeps` with a store whose
`workermodel.LoadByNameAndGroupID` hands back the model with `Editable` set. -/
def editableStoreDeps : Deps :=
  { specDeps with
    LoadByNameAndGroupID := fun name groupID =>
      .ok { storedModel with Name := name, GroupID := groupID, Editable := true } }

/-- An ordinary member of group 1 (`G1`): neither admin nor maintainer, not
an administrator of any group. -/
def memberCtx : Ctx where
  isAdmin := false
  isMaintainer := false
  isGroupAdmin := fun _ => false
  isGroupMember := fun g => g.ID == 1
  consumer := { Groups := [{ ID := 1, Name := "G1" }] }

/-- An administrator of group 1 (`G1`) who is neither admin nor maintainer. -/
def groupAdminCtx : Ctx where
  isAdmin := false
  isMaintainer := false
  isGroupAdmin := fun g => g.ID == 1
  isGroupMember := fun g => g.ID == 1
  consumer := { Groups := [{ ID := 1, Name := "G1" }] }

/-- A caller who belongs to group 2 only: neither admin nor maintainer,
neither member nor administrator of group 1. -/
def outsiderCtx : Ctx where
  isAdmin := false
  isMaintainer := false
  isGroupAdmin := fun _ => false
  isGroupMember := fun g => g.ID == 2
  consumer := { Groups := [{ ID := 2, Name := "G2" }] }

/-- An admin caller. -/
def adminCtx : Ctx where
  isAdmin := true
  isMaintainer := false
  isGroupAdmin := fun _ => false
  isGroupMember := fun _ => false
  consumer := { Groups := [] }

/-- The definition of the scenario of the specification: a docker model
`m1`, not restricted, provision 5, with the given pattern name and image. -/
def scenarioModel (pattern image : String) : Model :=
  { ID := 0, Name := "m1", GroupID := 1, Type_ := "docker", TypeData := ⟨image⟩,
    PatternName := pattern, Restricted := false, Provision := 5, Editable := false }

/-- A vsphere definition without image, submitted for the stored docker
model `m2`. -/
def vsphereModel : Model :=
  { ID := 0, Name := "m2", GroupID := 1, Type_ := "vsphere", TypeData := ⟨""⟩,
    PatternName := "default", Restricted := false, Provision := 5, Editable := false }

/-- An admin definition that a non-admin could not submit: not restricted,
provision 3, no pattern name. -/
def adminModel : Model :=
  { ID := 0, Name := "m2", GroupID := 1, Type_ := "docker", TypeData := ⟨"debian:9"⟩,
    PatternName := "", Restricted := false, Provision := 3, Editable := false }

/-- A request on the route of model `m2` of group `G1` (group id 1) carrying
the given definition as its body. -/
def requestWith (data : Model) : Request where
  vars := fun k =>
    if k == "permGroupName" then "G1" else if k == "permModelName" then "m2" else ""
  body := .ok data
  groupID := .ok 1
  ParseForm := none
  FormValue := fun _ => ""

/-! ## Prepared definitions

The values the handlers compute between validation and persistence, named so
that the lemmas below can refer to them. -/

/-- The definition that `putWorkerModelHandler` validates by type and hands
to `workermodel.Update`: for an admin the submitted one, for any other caller
the result of `CopyModelTypeData` on the submitted one with `Provision`
zeroed when it is not restricted. -/
def putPrepared (deps : Deps) (ctx : Ctx) (old data : Model) : Except Error Model :=
  if !ctx.isAdmin then
    deps.CopyModelTypeData old (if !data.Restricted then { data with Provision := 0 } else data)
  else .ok data

/-- The definition that `postWorkerModelHandler` hands to
`workermodel.Create`, or the policy error it returns instead. -/
def postPrepared (ctx : Ctx) (data : Model) : Except Error Model :=
  if !ctx.isAdmin then
    if !(if !data.Restricted then { data with Provision := 0 } else data).Restricted
        && (if !data.Restricted then { data with Provision := 0 } else data).PatternName == ""
    then .error (NewErrorFrom .ErrWorkerModelNoPattern "missing model pattern name")
    else .ok (if !data.Restricted then { data with Provision := 0 } else data)
  else .ok data

/-- The load filter that `getWorkerModelsHandler` builds from the form values,
or the error of the state filter validation. -/
def listFilter (deps : Deps) (r : Request) : Except Error LoadFilter :=
  if r.FormValue "state" != "" then
    match deps.StateFilterIsValid (r.FormValue "state") with
    | some err => .error err
    | none =>
      .ok { (if r.FormValue "binary" != "" then
              { ({ Binary := "", State := "" } : LoadFilter) with
                Binary := r.FormValue "binary" }
            else { Binary := "", State := "" }) with State := r.FormValue "state" }
  else
    .ok (if r.FormValue "binary" != "" then
          { ({ Binary := "", State := "" } : LoadFilter) with Binary := r.FormValue "binary" }
        else { Binary := "", State := "" })

/-! ## Shape of the handlers

Inversion and progress lemmas shared by the theorems below. -/

theorem post_create_inv (deps : Deps) (ctx : Ctx) (r : Request) (m : Model)
    (hm : Event.Create m ∈ (postWorkerModelHandler deps ctx r).events) :
    ∃ data, r.body = .ok data ∧ deps.IsValid data = none ∧ deps.IsValidType data = none ∧
      postPrepared ctx data = .ok m ∧ deps.Begin = none := by
  unfold postWorkerModelHandler at hm
  cases hbody : r.body with
  | error e => simp [hbody] at hm
  | ok data =>
    cases hvalid : deps.IsValid data with
    | some e => simp [hbody, hvalid] at hm
    | none =>
      cases htype : deps.IsValidType data with
      | some e => simp [hbody, hvalid, htype] at hm
      | none =>
        cases hd : postPrepared ctx data with
        | error e =>
          unfold postPrepared at hd
          simp only [hbody, hvalid, htype, hd] at hm
          simp at hm
        | ok d =>
          have hd2 := hd
          unfold postPrepared at hd2
          simp only [hbody, hvalid, htype, hd2] at hm
          cases hbegin : deps.Begin with
          | some e => simp [hbegin] at hm
          | none =>
            simp only [hbegin] at hm
            have hmd : m = d := by
              split at hm
              · simpa using hm
              · split at hm
                · simpa using hm
                · split at hm <;> simpa using hm
            subst hmd
            exact ⟨data, rfl, hvalid, htype, hd, rfl⟩

theorem post_reaches_create (deps : Deps) (ctx : Ctx) (r : Request) (data d : Model)
    (hbody : r.body = .ok data) (hvalid : deps.IsValid data = none)
    (htype : deps.IsValidType data = none) (hd : postPrepared ctx data = .ok d)
    (hbegin : deps.Begin = none) :
    ∃ rest, (postWorkerModelHandler deps ctx r).events = .Begin :: .Create d :: rest := by
  unfold postPrepared at hd
  unfold postWorkerModelHandler
  simp only [hbody, hvalid, htype, hd, hbegin]
  split
  · exact ⟨_, rfl⟩
  · split
    · exact ⟨_, rfl⟩
    · split <;> exact ⟨_, rfl⟩

theorem put_update_inv (deps : Deps) (ctx : Ctx) (r : Request) (old m : Model)
    (hm : Event.Update old m ∈ (putWorkerModelHandler deps ctx r).events) :
    ∃ g data, deps.LoadGroup (r.vars "permGroupName") = .ok g ∧
      deps.LoadByNameAndGroupIDWithClearPassword (r.vars "permModelName") g.ID = .ok old ∧
      r.body = .ok data ∧ deps.IsValid data = none ∧ putPrepared deps ctx old data = .ok m ∧
      deps.IsValidType m = none ∧ deps.Begin = none := by
  unfold putWorkerModelHandler at hm
  cases hg : deps.LoadGroup (r.vars "permGroupName") with
  | error e => simp [hg] at hm
  | ok g =>
    cases hold : deps.LoadByNameAndGroupIDWithClearPassword (r.vars "permModelName") g.ID with
    | error e => simp [hg, hold] at hm
    | ok o =>
      cases hbody : r.body with
      | error e => simp [hg, hold, hbody] at hm
      | ok data =>
        cases hvalid : deps.IsValid data with
        | some e => simp [hg, hold, hbody, hvalid] at hm
        | none =>
          cases hd : putPrepared deps ctx o data with
          | error e =>
            unfold putPrepared at hd
            simp only [hg, hold, hbody, hvalid, hd] at hm
            simp at hm
          | ok d =>
            have hd2 := hd
            unfold putPrepared at hd2
            simp only [hg, hold, hbody, hvalid, hd2] at hm
            cases htype : deps.IsValidType d with
            | some e => simp [htype] at hm
            | none =>
              cases hbegin : deps.Begin with
              | some e => simp [htype, hbegin] at hm
              | none =>
                simp only [htype, hbegin] at hm
                have hmd : old = o ∧ m = d := by
                  split at hm
                  · simpa using hm
                  · split at hm
                    · simpa using hm
                    · split at hm <;> simpa using hm
                obtain ⟨h1, h2⟩ := hmd
                subst h1 h2
                exact ⟨g, data, rfl, hold, rfl, hvalid, hd, htype, rfl⟩

theorem put_prepared_step (deps : Deps) (ctx : Ctx) (r : Request) (g : Group)
    (old data : Model)
    (hg : deps.LoadGroup (r.vars "permGroupName") = .ok g)
    (hold : deps.LoadByNameAndGroupIDWithClearPassword (r.vars "permModelName") g.ID = .ok old)
    (hbody : r.body = .ok data) (hvalid : deps.IsValid data = none) :
    (∀ e, putPrepared deps ctx old data = .error e →
      putWorkerModelHandler deps ctx r =
        ⟨[.LoadGroup (r.vars "permGroupName"),
          .LoadByNameAndGroupIDWithClearPassword (r.vars "permModelName") g.ID], some e⟩) ∧
    (∀ d e, putPrepared deps ctx old data = .ok d → deps.IsValidType d = some e →
      putWorkerModelHandler deps ctx r =
        ⟨[.LoadGroup (r.vars "permGroupName"),
          .LoadByNameAndGroupIDWithClearPassword (r.vars "permModelName") g.ID], some e⟩) ∧
    (∀ d, putPrepared deps ctx old data = .ok d → deps.IsValidType d = none →
      deps.Begin = none →
      ∃ rest, (putWorkerModelHandler deps ctx r).events =
        .LoadGroup (r.vars "permGroupName") ::
        .LoadByNameAndGroupIDWithClearPassword (r.vars "permModelName") g.ID ::
        .Begin :: .Update old d :: rest) := by
  refine ⟨?_, ?_, ?_⟩
  · intro e hd
    unfold putPrepared at hd
    unfold putWorkerModelHandler
    simp only [hg, hold, hbody, hvalid, hd]
  · intro d e hd ht
    unfold putPrepared at hd
    unfold putWorkerModelHandler
    simp only [hg, hold, hbody, hvalid, hd, ht]
  · intro d hd ht hb
    unfold putPrepared at hd
    unfold putWorkerModelHandler
    simp only [hg, hold, hbody, hvalid, hd, ht, hb]
    split
    · exact ⟨_, rfl⟩
    · split
      · exact ⟨_, rfl⟩
      · split <;> exact ⟨_, rfl⟩

theorem list_shape (deps : Deps) (ctx : Ctx) (r : Request) :
    (∃ e, getWorkerModelsHandler deps ctx r = ⟨[], some e⟩ ∧
      (r.ParseForm ≠ none ∨ listFilter deps r = .error e)) ∨
    (∃ f rest, r.ParseForm = none ∧ listFilter deps r = .ok f ∧
      (ctx.isMaintainer || ctx.isAdmin) = true ∧
      (getWorkerModelsHandler deps ctx r).events = .LoadAll f :: rest ∧
      ∀ ev ∈ rest, ∃ p s, ev = .WriteJSON p s) ∨
    (∃ f rest, r.ParseForm = none ∧ listFilter deps r = .ok f ∧
      (ctx.isMaintainer || ctx.isAdmin) = false ∧
      (getWorkerModelsHandler deps ctx r).events =
        .LoadAllByGroupIDs (GroupsToIDs ctx.consumer.Groups ++ [deps.SharedInfraGroup.ID]) f
          :: rest ∧
      ∀ ev ∈ rest, ∃ p s, ev = .WriteJSON p s) := by
  cases hp : r.ParseForm with
  | some e =>
    left
    refine ⟨WrapError ⟨.ErrWrongRequest, []⟩ "cannot parse form", ?_, Or.inl (by simp)⟩
    simp only [getWorkerModelsHandler, hp]
  | none =>
    cases hf : listFilter deps r with
    | error e =>
      left
      refine ⟨e, ?_, Or.inr rfl⟩
      unfold listFilter at hf
      simp only [getWorkerModelsHandler, hp, hf]
    | ok f =>
      have hf2 := hf
      unfold listFilter at hf2
      by_cases hpriv : (ctx.isMaintainer || ctx.isAdmin) = true
      · right; left
        cases hl : deps.LoadAll f with
        | error e =>
          refine ⟨f, [], rfl, rfl, hpriv, ?_, by simp⟩
          simp only [getWorkerModelsHandler, hp, hf2, if_pos hpriv, hl]
        | ok ms =>
          refine ⟨f, [.WriteJSON (.models ms) StatusOK], rfl, rfl, hpriv, ?_, by simp⟩
          simp only [getWorkerModelsHandler, hp, hf2, if_pos hpriv, hl]
      · right; right
        have hpriv2 : (ctx.isMaintainer || ctx.isAdmin) = false := by simpa using hpriv
        cases hl : deps.LoadAllByGroupIDs
            (GroupsToIDs ctx.consumer.Groups ++ [deps.SharedInfraGroup.ID]) f with
        | error e =>
          refine ⟨f, [], rfl, rfl, hpriv2, ?_, by simp⟩
          simp only [getWorkerModelsHandler, hp, hf2, if_neg hpriv, hl]
        | ok ms =>
          refine ⟨f, [.WriteJSON (.models ms) StatusOK], rfl, rfl, hpriv2, ?_, by simp⟩
          simp only [getWorkerModelsHandler, hp, hf2, if_neg hpriv, hl]

theorem usage_shape (deps : Deps) (ctx : Ctx) (r : Request) :
    (∃ evs e, getWorkerModelUsageHandler deps ctx r = ⟨evs, some e⟩ ∧
      (∀ g m, deps.LoadGroup (r.vars "permGroupName") = .ok g →
        deps.LoadByNameAndGroupID (r.vars "permModelName") g.ID ≠ .ok m) ∧
      ∀ ev ∈ evs, (∃ n, ev = .LoadGroup n) ∨ ∃ n i, ev = .LoadByNameAndGroupID n i) ∨
    (∃ g m rest, deps.LoadGroup (r.vars "permGroupName") = .ok g ∧
      deps.LoadByNameAndGroupID (r.vars "permModelName") g.ID = .ok m ∧
      (ctx.isMaintainer || ctx.isAdmin) = true ∧
      (getWorkerModelUsageHandler deps ctx r).events =
        .LoadGroup (r.vars "permGroupName") ::
        .LoadByNameAndGroupID (r.vars "permModelName") g.ID ::
        .LoadByWorkerModel m :: rest ∧
      ∀ ev ∈ rest, ∃ p s, ev = .WriteJSON p s) ∨
    (∃ g m rest, deps.LoadGroup (r.vars "permGroupName") = .ok g ∧
      deps.LoadByNameAndGroupID (r.vars "permModelName") g.ID = .ok m ∧
      (ctx.isMaintainer || ctx.isAdmin) = false ∧
      (getWorkerModelUsageHandler deps ctx r).events =
        .LoadGroup (r.vars "permGroupName") ::
        .LoadByNameAndGroupID (r.vars "permModelName") g.ID ::
        .LoadByWorkerModelAndGroupIDs m
          (GroupsToIDs ctx.consumer.Groups ++ [deps.SharedInfraGroup.ID]) :: rest ∧
      ∀ ev ∈ rest, ∃ p s, ev = .WriteJSON p s) := by
  cases hg : deps.LoadGroup (r.vars "permGroupName") with
  | error e =>
    left
    refine ⟨[.LoadGroup (r.vars "permGroupName")], e, ?_, ?_, ?_⟩
    · simp only [getWorkerModelUsageHandler, hg]
    · intro g m h
      cases h
    · simp
  | ok g =>
    cases hm : deps.LoadByNameAndGroupID (r.vars "permModelName") g.ID with
    | error e =>
      left
      refine ⟨[.LoadGroup (r.vars "permGroupName"),
        .LoadByNameAndGroupID (r.vars "permModelName") g.ID],
        WrapError e "cannot load worker model", ?_, ?_, ?_⟩
      · simp only [getWorkerModelUsageHandler, hg, hm]
      · intro g1 m h
        cases h
        rw [hm]
        simp
      · simp
    | ok m =>
      by_cases hpriv : (ctx.isMaintainer || ctx.isAdmin) = true
      · right; left
        cases hl : deps.LoadByWorkerModel m with
        | error e =>
          refine ⟨g, m, [], rfl, hm, hpriv, ?_, by simp⟩
          simp only [getWorkerModelUsageHandler, hg, hm, if_pos hpriv, hl]
          rfl
        | ok ps =>
          refine ⟨g, m, [.WriteJSON (.pipelines ps) StatusOK], rfl, hm, hpriv, ?_, by simp⟩
          simp only [getWorkerModelUsageHandler, hg, hm, if_pos hpriv, hl]
          rfl
      · right; right
        have hpriv2 : (ctx.isMaintainer || ctx.isAdmin) = false := by simpa using hpriv
        cases hl : deps.LoadByWorkerModelAndGroupIDs m
            (GroupsToIDs ctx.consumer.Groups ++ [deps.SharedInfraGroup.ID]) with
        | error e =>
          refine ⟨g, m, [], rfl, hm, hpriv2, ?_, by simp⟩
          simp only [getWorkerModelUsageHandler, hg, hm, if_neg hpriv, hl]
          rfl
        | ok ps =>
          refine ⟨g, m, [.WriteJSON (.pipelines ps) StatusOK], rfl, hm, hpriv2, ?_, by simp⟩
          simp only [getWorkerModelUsageHandler, hg, hm, if_neg hpriv, hl]
          rfl

/-- Once its transaction has begun, `postWorkerModelHandler` ends every run
with the deferred `Rollback`. -/
theorem post_rolls_back (deps : Deps) (ctx : Ctx) (r : Request) (hbegin : deps.Begin = none)
    (hin : Event.Begin ∈ (postWorkerModelHandler deps ctx r).events) :
    (postWorkerModelHandler deps ctx r).events.getLast? = some .Rollback := by
  unfold postWorkerModelHandler at hin ⊢
  cases hbody : r.body with
  | error e => simp [hbody] at hin
  | ok data =>
    cases hvalid : deps.IsValid data with
    | some e => simp [hbody, hvalid] at hin
    | none =>
      cases htype : deps.IsValidType data with
      | some e => simp [hbody, hvalid, htype] at hin
      | none =>
        cases hd : postPrepared ctx data with
        | error e =>
          unfold postPrepared at hd
          simp only [hbody, hvalid, htype, hd] at hin
          simp at hin
        | ok d =>
          unfold postPrepared at hd
          simp only [hbody, hvalid, htype, hd, hbegin]
          split
          · simp
          · split
            · simp
            · split <;> simp

/-- Once its transaction has begun, `putWorkerModelHandler` ends every run
with the deferred `Rollback`. -/
theorem put_rolls_back (deps : Deps) (ctx : Ctx) (r : Request) (hbegin : deps.Begin = none)
    (hin : Event.Begin ∈ (putWorkerModelHandler deps ctx r).events) :
    (putWorkerModelHandler deps ctx r).events.getLast? = some .Rollback := by
  unfold putWorkerModelHandler at hin ⊢
  cases hg : deps.LoadGroup (r.vars "permGroupName") with
  | error e => simp [hg] at hin
  | ok g =>
    cases hold : deps.LoadByNameAndGroupIDWithClearPassword (r.vars "permModelName") g.ID with
    | error e => simp [hg, hold] at hin
    | ok o =>
      cases hbody : r.body with
      | error e => simp [hg, hold, hbody] at hin
      | ok data =>
        cases hvalid : deps.IsValid data with
        | some e => simp [hg, hold, hbody, hvalid] at hin
        | none =>
          cases hd : putPrepared deps ctx o data with
          | error e =>
            unfold putPrepared at hd
            simp only [hg, hold, hbody, hvalid, hd] at hin
            simp at hin
          | ok d =>
            unfold putPrepared at hd
            cases htype : deps.IsValidType d with
            | some e =>
              simp only [hg, hold, hbody, hvalid, hd, htype] at hin
              simp at hin
            | none =>
              simp only [hg, hold, hbody, hvalid, hd, htype, hbegin]
              split
              · simp
              · split
                · simp
                · split <;> simp

/-! ## Theorems -/

/-- C1: for a non-admin caller and a submitted definition with
`Restricted = false`, every model handed to `workermodel.Create` by
`postWorkerModelHandler` and every model handed to `workermodel.Update` by
`putWorkerModelHandler` has `Provision = 0`, whatever `Provision` was
submitted.  `CopyModelTypeData`, which runs between the zeroing and the
update, is any function that leaves `Provision` as it finds it. -/
theorem nonAdmin_unrestricted_provision_zero (deps : Deps) (ctx : Ctx) (r : Request)
    (data : Model) (hbody : r.body = .ok data) (hadmin : ctx.isAdmin = false)
    (hres : data.Restricted = false)
    (hcopy : ∀ old d d2, deps.CopyModelTypeData old d = .ok d2 → d2.Provision = d.Provision) :
    (∀ m, Event.Create m ∈ (postWorkerModelHandler deps ctx r).events → m.Provision = 0) ∧
    (∀ old m, Event.Update old m ∈ (putWorkerModelHandler deps ctx r).events →
      m.Provision = 0) := by
  constructor
  · intro m hm
    obtain ⟨d, hb, _, _, hd, _⟩ := post_create_inv deps ctx r m hm
    rw [hbody] at hb
    cases hb
    simp only [postPrepared, hadmin, hres, Bool.not_false, if_true] at hd
    split at hd
    · cases hd
    · cases hd
      rfl
  · intro old m hm
    obtain ⟨g, d, _, _, hb, _, hd, _, _⟩ := put_update_inv deps ctx r old m hm
    rw [hbody] at hb
    cases hb
    simp only [putPrepared, hadmin, hres, Bool.not_false, if_true] at hd
    exact hcopy _ _ _ hd

/-- Witness of C1: the scenario of the specification with pattern `default`
reaches `workermodel.Create` with the provision 5 replaced by 0. -/
theorem nonAdmin_unrestricted_provision_zero_witness :
    Event.Create { scenarioModel "default" "debian:9" with Provision := 0 } ∈
      (postWorkerModelHandler specDeps memberCtx
        (requestWith (scenarioModel "default" "debian:9"))).events ∧
    ((∀ m, Event.Create m ∈ (postWorkerModelHandler specDeps memberCtx
        (requestWith (scenarioModel "default" "debian:9"))).events → m.Provision = 0) ∧
     (∀ old m, Event.Update old m ∈ (putWorkerModelHandler specDeps memberCtx
        (requestWith (scenarioModel "default" "debian:9"))).events → m.Provision = 0)) :=
  ⟨by decide,
   nonAdmin_unrestricted_provision_zero specDeps memberCtx
     (requestWith (scenarioModel "default" "debian:9")) (scenarioModel "default" "debian:9")
     rfl rfl rfl
     (by
       intro old d d2 h
       simp only [specDeps, CopyModelTypeData, Except.ok.injEq] at h
       rw [← h])⟩

/-- Counterexample to C2 as stated: the scenario definition (docker, not
restricted, provision 5, empty pattern name) passes `IsValid`, yet with an
empty image `postWorkerModelHandler` returns the error of `IsValidType`, not
the missing pattern error: type validation runs on the submitted definition
before the policy step. -/
theorem post_type_error_before_pattern_error :
    memberCtx.isAdmin = false ∧
    specDeps.IsValid (scenarioModel "" "") = none ∧
    (scenarioModel "" "").Restricted = false ∧
    (scenarioModel "" "").PatternName = "" ∧
    postWorkerModelHandler specDeps memberCtx (requestWith (scenarioModel "" "")) =
      ⟨[], specDeps.IsValidType (scenarioModel "" "")⟩ ∧
    (postWorkerModelHandler specDeps memberCtx (requestWith (scenarioModel "" ""))).err ≠
      some (NewErrorFrom .ErrWorkerModelNoPattern "missing model pattern name") := by
  decide

/-- C2 (amended): for a non-admin caller and a submitted definition that
passes `IsValid`, has `Restricted = false` and an empty pattern name,
`postWorkerModelHandler` fails with `ErrWorkerModelNoPattern` and makes no
call at all (no transaction, no `workermodel.Create`) when the definition
also passes `IsValidType`; when the submitted definition fails `IsValidType`
the handler returns that error instead, again with no call: type validation
is applied to the submitted definition, before the policy step. -/
theorem post_nonAdmin_missing_pattern (deps : Deps) (ctx : Ctx) (r : Request) (data : Model)
    (hbody : r.body = .ok data) (hadmin : ctx.isAdmin = false)
    (hvalid : deps.IsValid data = none) (hres : data.Restricted = false)
    (hpat : data.PatternName = "") :
    (deps.IsValidType data = none →
      postWorkerModelHandler deps ctx r =
        ⟨[], some (NewErrorFrom .ErrWorkerModelNoPattern "missing model pattern name")⟩) ∧
    (∀ e, deps.IsValidType data = some e → postWorkerModelHandler deps ctx r = ⟨[], some e⟩) := by
  constructor
  · intro htype
    simp [postWorkerModelHandler, hbody, hadmin, hvalid, htype, hres, hpat]
  · intro e htype
    simp [postWorkerModelHandler, hbody, hvalid, htype]

/-- Witness of C2 (amended): the scenario definition with an image and an
empty pattern name is refused with the missing pattern error. -/
theorem post_nonAdmin_missing_pattern_witness :
    postWorkerModelHandler specDeps memberCtx (requestWith (scenarioModel "" "debian:9")) =
      ⟨[], some (NewErrorFrom .ErrWorkerModelNoPattern "missing model pattern name")⟩ :=
  (post_nonAdmin_missing_pattern specDeps memberCtx (requestWith (scenarioModel "" "debian:9"))
    (scenarioModel "" "debian:9") rfl rfl (by decide) rfl rfl).1 (by decide)

/-- Counterexample to C3 as stated: a non-admin group administrator submits
a definition that passes `IsValid`, is not restricted and has an empty
pattern name; `putWorkerModelHandler` returns no error and calls
`workermodel.Update` on it.  The submitted type and image equal those of the stored model, so the
copy of the type data changes nothing. -/
theorem put_missing_pattern_reaches_update :
    groupAdminCtx.isAdmin = false ∧
    specDeps.IsValid (scenarioModel "" "debian:9") = none ∧
    (scenarioModel "" "debian:9").Restricted = false ∧
    (scenarioModel "" "debian:9").PatternName = "" ∧
    (putWorkerModelHandler specDeps groupAdminCtx
      (requestWith (scenarioModel "" "debian:9"))).err = none ∧
    Event.Update { storedModel with Name := "m2", GroupID := 1 }
        { scenarioModel "" "debian:9" with Provision := 0 } ∈
      (putWorkerModelHandler specDeps groupAdminCtx
        (requestWith (scenarioModel "" "debian:9"))).events := by
  decide

/-- C3 (amended): for a non-admin caller and a submitted definition that
passes `IsValid`, has `Restricted = false` and an empty pattern name,
`putWorkerModelHandler` makes no pattern name check of its own.  With the
group and the existing model loaded, it zeroes `Provision` and runs
`CopyModelTypeData`; it fails before the transaction exactly with the error
of `CopyModelTypeData` or with the error of `IsValidType` on the
copied definition, and when both accept and the transaction begins,
`workermodel.Update` is called with the copied definition. -/
theorem put_nonAdmin_missing_pattern (deps : Deps) (ctx : Ctx) (r : Request)
    (g : Group) (old data : Model)
    (hg : deps.LoadGroup (r.vars "permGroupName") = .ok g)
    (hold : deps.LoadByNameAndGroupIDWithClearPassword (r.vars "permModelName") g.ID = .ok old)
    (hbody : r.body = .ok data) (hadmin : ctx.isAdmin = false)
    (hvalid : deps.IsValid data = none) (hres : data.Restricted = false)
    (_hpat : data.PatternName = "") :
    (∀ e, deps.CopyModelTypeData old { data with Provision := 0 } = .error e →
      putWorkerModelHandler deps ctx r =
        ⟨[.LoadGroup (r.vars "permGroupName"),
          .LoadByNameAndGroupIDWithClearPassword (r.vars "permModelName") g.ID], some e⟩) ∧
    (∀ d e, deps.CopyModelTypeData old { data with Provision := 0 } = .ok d →
      deps.IsValidType d = some e →
      putWorkerModelHandler deps ctx r =
        ⟨[.LoadGroup (r.vars "permGroupName"),
          .LoadByNameAndGroupIDWithClearPassword (r.vars "permModelName") g.ID], some e⟩) ∧
    (∀ d, deps.CopyModelTypeData old { data with Provision := 0 } = .ok d →
      deps.IsValidType d = none → deps.Begin = none →
      Event.Update old d ∈ (putWorkerModelHandler deps ctx r).events) := by
  have hprep : putPrepared deps ctx old data =
      deps.CopyModelTypeData old { data with Provision := 0 } := by
    simp [putPrepared, hadmin, hres]
  obtain ⟨h1, h2, h3⟩ := put_prepared_step deps ctx r g old data hg hold hbody hvalid
  rw [hprep] at h1 h2 h3
  refine ⟨h1, h2, ?_⟩
  intro d hc ht hb
  obtain ⟨rest, hrest⟩ := h3 d hc ht hb
  rw [hrest]
  simp

/-- Witness of C3 (amended): the update of the counterexample reaches
`workermodel.Update`. -/
theorem put_nonAdmin_missing_pattern_witness :
    Event.Update { storedModel with Name := "m2", GroupID := 1 }
        { scenarioModel "" "debian:9" with Provision := 0 } ∈
      (putWorkerModelHandler specDeps groupAdminCtx
        (requestWith (scenarioModel "" "debian:9"))).events :=
  (put_nonAdmin_missing_pattern specDeps groupAdminCtx
    (requestWith (scenarioModel "" "debian:9")) { ID := 1, Name := "G1" }
    { storedModel with Name := "m2", GroupID := 1 } (scenarioModel "" "debian:9")
    rfl rfl rfl rfl (by decide) rfl rfl).2.2
    { scenarioModel "" "debian:9" with Provision := 0 } rfl (by decide) rfl

/-- C4: with the copy of the type classification data that the specification
describes, every model that a non-admin update hands to `workermodel.Update`
has the type and the type specific data of the existing model loaded from
the store, whatever the submitted payload declared; and `IsValidType` is
evaluated on the copied definition, not on the submitted one: the handler
fails with the `IsValidType` error of the copied definition, and reaches
`workermodel.Update` when the copied definition is accepted, whatever
`IsValidType` says of the submitted definition. -/
theorem put_nonAdmin_keeps_type (deps : Deps) (ctx : Ctx) (r : Request)
    (hcopy : deps.CopyModelTypeData = CopyModelTypeData) (hadmin : ctx.isAdmin = false) :
    (∀ old m, Event.Update old m ∈ (putWorkerModelHandler deps ctx r).events →
      m.Type_ = old.Type_ ∧ m.TypeData = old.TypeData) ∧
    (∀ g old data,
      deps.LoadGroup (r.vars "permGroupName") = .ok g →
      deps.LoadByNameAndGroupIDWithClearPassword (r.vars "permModelName") g.ID = .ok old →
      r.body = .ok data → deps.IsValid data = none →
      (∀ e, deps.IsValidType
          { (if data.Restricted then data else { data with Provision := 0 }) with
            Type_ := old.Type_, TypeData := old.TypeData } = some e →
        putWorkerModelHandler deps ctx r =
          ⟨[.LoadGroup (r.vars "permGroupName"),
            .LoadByNameAndGroupIDWithClearPassword (r.vars "permModelName") g.ID], some e⟩) ∧
      (deps.IsValidType
          { (if data.Restricted then data else { data with Provision := 0 }) with
            Type_ := old.Type_, TypeData := old.TypeData } = none →
        deps.Begin = none →
        Event.Update old
            { (if data.Restricted then data else { data with Provision := 0 }) with
              Type_ := old.Type_, TypeData := old.TypeData } ∈
          (putWorkerModelHandler deps ctx r).events)) := by
  have hprep : ∀ old data, putPrepared deps ctx old data =
      .ok { (if data.Restricted then data else { data with Provision := 0 }) with
            Type_ := old.Type_, TypeData := old.TypeData } := by
    intro old data
    cases hr : data.Restricted <;> simp [putPrepared, hadmin, hcopy, CopyModelTypeData, hr]
  constructor
  · intro old m hm
    obtain ⟨g, d, _, _, _, _, hd, _, _⟩ := put_update_inv deps ctx r old m hm
    rw [hprep] at hd
    cases hd
    exact ⟨rfl, rfl⟩
  · intro g old data hg hold hbody hvalid
    obtain ⟨_, h2, h3⟩ := put_prepared_step deps ctx r g old data hg hold hbody hvalid
    constructor
    · intro e ht
      exact h2 _ e (hprep old data) ht
    · intro ht hb
      obtain ⟨rest, hrest⟩ := h3 _ (hprep old data) ht hb
      rw [hrest]
      simp

/-- Witness of C4: a non-admin group administrator submits a vsphere payload
without image for the stored docker model; the submitted payload fails
`IsValidType`, the copied one passes, and `workermodel.Update` receives the
docker type and image of the stored model. -/
theorem put_nonAdmin_keeps_type_witness :
    specDeps.IsValidType vsphereModel ≠ none ∧
    (∀ old m, Event.Update old m ∈
        (putWorkerModelHandler specDeps groupAdminCtx (requestWith vsphereModel)).events →
      m.Type_ = old.Type_ ∧ m.TypeData = old.TypeData) ∧
    Event.Update { storedModel with Name := "m2", GroupID := 1 }
        { vsphereModel with Provision := 0, Type_ := "docker", TypeData := ⟨"debian:9"⟩ } ∈
      (putWorkerModelHandler specDeps groupAdminCtx (requestWith vsphereModel)).events :=
  ⟨by decide,
   (put_nonAdmin_keeps_type specDeps groupAdminCtx (requestWith vsphereModel) rfl rfl).1,
   ((put_nonAdmin_keeps_type specDeps groupAdminCtx (requestWith vsphereModel) rfl rfl).2
      { ID := 1, Name := "G1" } { storedModel with Name := "m2", GroupID := 1 } vsphereModel
      rfl rfl rfl (by decide)).2 (by decide) rfl⟩

/-- C5: for an admin caller and a submitted definition that passes `IsValid`
and `IsValidType`, create and update strip nothing and copy nothing.  Every
model handed to `workermodel.Create` or `workermodel.Update` is exactly the
submitted definition, whatever its `Restricted`, `Provision` and
`PatternName`; and no policy error is returned: the handler always goes on to
`Begin`, after which it calls `workermodel.Create` (`workermodel.Update`)
with the submitted definition, or returns the wrapped error of `Begin`. -/
theorem admin_payload_as_is (deps : Deps) (ctx : Ctx) (r : Request) (data : Model)
    (hbody : r.body = .ok data) (hadmin : ctx.isAdmin = true)
    (hvalid : deps.IsValid data = none) (htype : deps.IsValidType data = none) :
    ((∀ m, Event.Create m ∈ (postWorkerModelHandler deps ctx r).events → m = data) ∧
     (deps.Begin = none →
        ∃ rest, (postWorkerModelHandler deps ctx r).events = .Begin :: .Create data :: rest) ∧
     (∀ e, deps.Begin = some e →
        postWorkerModelHandler deps ctx r =
          ⟨[.Begin], some (WrapError e "cannot begin transaction")⟩)) ∧
    (∀ g old,
      deps.LoadGroup (r.vars "permGroupName") = .ok g →
      deps.LoadByNameAndGroupIDWithClearPassword (r.vars "permModelName") g.ID = .ok old →
      (∀ old1 m, Event.Update old1 m ∈ (putWorkerModelHandler deps ctx r).events →
        m = data) ∧
      (deps.Begin = none →
        ∃ rest, (putWorkerModelHandler deps ctx r).events =
          .LoadGroup (r.vars "permGroupName") ::
          .LoadByNameAndGroupIDWithClearPassword (r.vars "permModelName") g.ID ::
          .Begin :: .Update old data :: rest) ∧
      (∀ e, deps.Begin = some e →
        putWorkerModelHandler deps ctx r =
          ⟨[.LoadGroup (r.vars "permGroupName"),
            .LoadByNameAndGroupIDWithClearPassword (r.vars "permModelName") g.ID, .Begin],
            some (WrapError e "cannot begin transaction")⟩)) := by
  have hpost : postPrepared ctx data = .ok data := by simp [postPrepared, hadmin]
  have hput : ∀ old, putPrepared deps ctx old data = .ok data := by
    intro old
    simp [putPrepared, hadmin]
  refine ⟨⟨?_, ?_, ?_⟩, ?_⟩
  · intro m hm
    obtain ⟨d, hb, _, _, hd, _⟩ := post_create_inv deps ctx r m hm
    rw [hbody] at hb
    cases hb
    rw [hpost] at hd
    cases hd
    rfl
  · intro hbegin
    exact post_reaches_create deps ctx r data data hbody hvalid htype hpost hbegin
  · intro e hbegin
    simp [postWorkerModelHandler, hbody, hvalid, htype, hadmin, hbegin]
  · intro g old hg hold
    refine ⟨?_, ?_, ?_⟩
    · intro old1 m hm
      obtain ⟨g1, d, _, _, hb, _, hd, _, _⟩ := put_update_inv deps ctx r old1 m hm
      rw [hbody] at hb
      cases hb
      rw [hput] at hd
      cases hd
      rfl
    · intro hbegin
      exact (put_prepared_step deps ctx r g old data hg hold hbody hvalid).2.2 data
        (hput old) htype hbegin
    · intro e hbegin
      simp [putWorkerModelHandler, hg, hold, hbody, hvalid, htype, hadmin, hbegin]

/-- Witness of C5: an admin creates and updates with a definition that is
not restricted, has provision 3 and no pattern name; both handlers hand it
over unchanged. -/
theorem admin_payload_as_is_witness :
    (∃ rest, (postWorkerModelHandler specDeps adminCtx (requestWith adminModel)).events =
      .Begin :: .Create adminModel :: rest) ∧
    (∃ rest, (putWorkerModelHandler specDeps adminCtx (requestWith adminModel)).events =
      .LoadGroup "G1" :: .LoadByNameAndGroupIDWithClearPassword "m2" 1 ::
      .Begin :: .Update { storedModel with Name := "m2", GroupID := 1 } adminModel :: rest) :=
  ⟨(admin_payload_as_is specDeps adminCtx (requestWith adminModel) adminModel rfl rfl
      (by decide) (by decide)).1.2.1 rfl,
   ((admin_payload_as_is specDeps adminCtx (requestWith adminModel) adminModel rfl rfl
      (by decide) (by decide)).2 { ID := 1, Name := "G1" }
      { storedModel with Name := "m2", GroupID := 1 } rfl rfl).2.1 rfl⟩

/-- C6 (the handler inverts the gate): for the existing group 1, a caller
who is neither member of the group nor admin is not refused:
`getWorkerModelsForGroupHandler` runs the model query for the group ids
`[1, SharedInfraGroup.ID]` and writes its result; for a member of the group
the handler returns `nil` after loading the group, runs no model query and
writes no response. -/
theorem forGroup_gate_inverted :
    (outsiderCtx.isGroupMember { ID := 1, Name := "G1" } = false ∧
      outsiderCtx.isAdmin = false ∧
      getWorkerModelsForGroupHandler specDeps outsiderCtx (requestWith storedModel) =
        ⟨[.LoadGroupByID 1, .LoadAllActiveAndNotDeprecatedForGroupIDs [1, 100],
          .WriteJSON (.models [storedModel]) StatusOK], none⟩) ∧
    (memberCtx.isGroupMember { ID := 1, Name := "G1" } = true ∧
      getWorkerModelsForGroupHandler specDeps memberCtx (requestWith storedModel) =
        ⟨[.LoadGroupByID 1], none⟩) := by
  decide

/-- Counterexample to C7 as stated: the model loaded from storage carries
`Editable = true` and the caller is neither admin nor administrator of the
owning group, yet the response of `getWorkerModelHandler` has
`Editable = true`: the loaded value is passed through. -/
theorem get_editable_taken_from_storage :
    outsiderCtx.isAdmin = false ∧
    outsiderCtx.isGroupAdmin { ID := 1, Name := "G1" } = false ∧
    getWorkerModelHandler editableStoreDeps outsiderCtx (requestWith storedModel) =
      ⟨[.LoadGroup "G1", .LoadByNameAndGroupID "m2" 1,
        .WriteJSON (.model { storedModel with Editable := true }) StatusOK], none⟩ := by
  decide

/-- C7 (amended): with the group `g` and the model `m` loaded,
`getWorkerModelHandler` writes `m` with its `Editable` flag set to
`m.Editable || isGroupAdmin(ctx, g) || isAdmin(ctx)` and every other field
untouched: the flag of the response is true if and only if the caller is
admin or administrator of the owning group or the loaded model already
carried `Editable = true`; for a loaded model with `Editable = false` it is
true exactly for admins and administrators of the owning group. -/
theorem get_editable_flag (deps : Deps) (ctx : Ctx) (r : Request) (g : Group) (m : Model)
    (hg : deps.LoadGroup (r.vars "permGroupName") = .ok g)
    (hm : deps.LoadByNameAndGroupID (r.vars "permModelName") g.ID = .ok m) :
    ∃ resp, getWorkerModelHandler deps ctx r =
        ⟨[.LoadGroup (r.vars "permGroupName"),
          .LoadByNameAndGroupID (r.vars "permModelName") g.ID,
          .WriteJSON (.model resp) StatusOK], deps.WriteJSON (.model resp) StatusOK⟩ ∧
      resp = { m with Editable := resp.Editable } ∧
      (resp.Editable = true ↔
        m.Editable = true ∨ ctx.isGroupAdmin g = true ∨ ctx.isAdmin = true) ∧
      (m.Editable = false →
        (resp.Editable = true ↔ ctx.isGroupAdmin g = true ∨ ctx.isAdmin = true)) := by
  by_cases hpriv : (ctx.isGroupAdmin g || ctx.isAdmin) = true
  · refine ⟨{ m with Editable := true }, ?_, rfl, ?_, ?_⟩
    · simp only [getWorkerModelHandler, hg, hm, if_pos hpriv]
      rfl
    · simp only [Bool.or_eq_true] at hpriv
      simp [hpriv]
    · intro _
      simp only [Bool.or_eq_true] at hpriv
      simp [hpriv]
  · refine ⟨m, ?_, rfl, ?_, ?_⟩
    · simp only [getWorkerModelHandler, hg, hm, if_neg hpriv]
      rfl
    · simp only [Bool.or_eq_true] at hpriv
      simp [hpriv]
    · intro hme
      simp only [Bool.or_eq_true] at hpriv
      simp [hpriv, hme]

/-- Witness of C7 (amended): for the stored model, whose `Editable` is
false, the response to the administrator of group 1 is editable. -/
theorem get_editable_flag_witness :
    ∃ resp, getWorkerModelHandler specDeps groupAdminCtx (requestWith storedModel) =
        ⟨[.LoadGroup "G1", .LoadByNameAndGroupID "m2" 1,
          .WriteJSON (.model resp) StatusOK], specDeps.WriteJSON (.model resp) StatusOK⟩ ∧
      resp = { ({ storedModel with Name := "m2", GroupID := 1 } : Model) with
        Editable := resp.Editable } ∧
      (resp.Editable = true ↔
        ({ storedModel with Name := "m2", GroupID := 1 } : Model).Editable = true ∨
        groupAdminCtx.isGroupAdmin { ID := 1, Name := "G1" } = true ∨
        groupAdminCtx.isAdmin = true) ∧
      (({ storedModel with Name := "m2", GroupID := 1 } : Model).Editable = false →
        (resp.Editable = true ↔
          groupAdminCtx.isGroupAdmin { ID := 1, Name := "G1" } = true ∨
          groupAdminCtx.isAdmin = true)) :=
  get_editable_flag specDeps groupAdminCtx (requestWith storedModel) { ID := 1, Name := "G1" }
    { storedModel with Name := "m2", GroupID := 1 } rfl rfl

/-- Counterexample to C8 as stated: a caller who is neither admin nor
administrator of the owning group deletes the stored model:
`deleteWorkerModelHandler` calls `workermodel.Delete`, commits and returns
`nil`, not a Forbidden error. -/
theorem delete_by_outsider_succeeds :
    outsiderCtx.isAdmin = false ∧
    outsiderCtx.isGroupAdmin { ID := 1, Name := "G1" } = false ∧
    deleteWorkerModelHandler specDeps outsiderCtx (requestWith storedModel) =
      ⟨[.LoadGroup "G1", .LoadByNameAndGroupID "m2" 1, .Begin, .Delete 7, .Commit,
        .CacheDeleteAll workerModelsKey], none⟩ := by
  decide

/-- C8 (amended): `deleteWorkerModelHandler` makes no check of the caller.
For every caller and every existing model, once the transaction begins the
handler calls `workermodel.Delete` with the id of the model, and its whole
behaviour is the same for every other caller. -/
theorem delete_has_no_caller_check (deps : Deps) (ctx : Ctx) (r : Request) (g : Group)
    (m : Model)
    (hg : deps.LoadGroup (r.vars "permGroupName") = .ok g)
    (hm : deps.LoadByNameAndGroupID (r.vars "permModelName") g.ID = .ok m)
    (hbegin : deps.Begin = none) :
    (∃ rest, (deleteWorkerModelHandler deps ctx r).events =
      .LoadGroup (r.vars "permGroupName") ::
      .LoadByNameAndGroupID (r.vars "permModelName") g.ID ::
      .Begin :: .Delete m.ID :: rest) ∧
    (∀ ctx2, deleteWorkerModelHandler deps ctx2 r = deleteWorkerModelHandler deps ctx r) := by
  constructor
  · simp only [deleteWorkerModelHandler, hg, hm, hbegin]
    split
    · exact ⟨_, rfl⟩
    · split <;> exact ⟨_, rfl⟩
  · intro ctx2
    rfl

/-- Witness of C8 (amended): the delete of the stored model by a caller
outside its group. -/
theorem delete_has_no_caller_check_witness :
    (∃ rest, (deleteWorkerModelHandler specDeps outsiderCtx (requestWith storedModel)).events =
      .LoadGroup "G1" :: .LoadByNameAndGroupID "m2" 1 :: .Begin :: .Delete 7 :: rest) ∧
    (∀ ctx2, deleteWorkerModelHandler specDeps ctx2 (requestWith storedModel) =
      deleteWorkerModelHandler specDeps outsiderCtx (requestWith storedModel)) :=
  delete_has_no_caller_check specDeps outsiderCtx (requestWith storedModel)
    { ID := 1, Name := "G1" } { storedModel with Name := "m2", GroupID := 1 } rfl rfl rfl

/-- C9 (the delete handler defers no rollback): when `workermodel.Delete`
fails, or when the commit fails, `deleteWorkerModelHandler` returns the error
after `Begin` without any `Rollback`; `postWorkerModelHandler` and
`putWorkerModelHandler`, on the same failing commit, roll back before they
return. -/
theorem delete_failure_without_rollback :
    (deleteWorkerModelHandler failingDeleteDeps adminCtx (requestWith storedModel) =
      ⟨[.LoadGroup "G1", .LoadByNameAndGroupID "m2" 1, .Begin, .Delete 7],
        some (WrapError (NewErrorFrom .ErrUnknown "delete failed")
          "cannot delete worker model")⟩) ∧
    (deleteWorkerModelHandler failingCommitDeps adminCtx (requestWith storedModel) =
      ⟨[.LoadGroup "G1", .LoadByNameAndGroupID "m2" 1, .Begin, .Delete 7, .Commit],
        some (WrapError (NewErrorFrom .ErrUnknown "commit failed")
          "Cannot commit transaction")⟩) ∧
    (postWorkerModelHandler failingCommitDeps adminCtx (requestWith storedModel) =
      ⟨[.Begin, .Create storedModel, .Commit, .Rollback],
        some (WrapError (NewErrorFrom .ErrUnknown "commit failed")
          "unable to commit transaction")⟩) ∧
    (putWorkerModelHandler failingCommitDeps adminCtx (requestWith storedModel)).events =
      [.LoadGroup "G1", .LoadByNameAndGroupIDWithClearPassword "m2" 1, .Begin,
        .Update { storedModel with Name := "m2", GroupID := 1 } storedModel,
        .Commit, .Rollback] := by
  decide

/-- C10: in `getWorkerModelsHandler` and `getWorkerModelUsageHandler`, a
maintainer or admin caller gets the load without group scope (`LoadAll`,
`LoadByWorkerModel`) and never the scoped one; any other caller gets the
scoped load (`LoadAllByGroupIDs`, `LoadByWorkerModelAndGroupIDs`) and never
the other one, and the group id list passed to it contains exactly the ids of
the groups of the caller and `SharedInfraGroup.ID`.  The load is reached as
soon as the form parses and the filter is valid (list), or the group and the
model are found (usage). -/
theorem visible_groups_scope (deps : Deps) (ctx : Ctx) (r : Request) :
    ((ctx.isMaintainer || ctx.isAdmin) = true →
      (∀ ids f, Event.LoadAllByGroupIDs ids f ∉ (getWorkerModelsHandler deps ctx r).events) ∧
      (∀ m ids, Event.LoadByWorkerModelAndGroupIDs m ids ∉
        (getWorkerModelUsageHandler deps ctx r).events) ∧
      (∀ f, r.ParseForm = none → listFilter deps r = .ok f →
        ∃ rest, (getWorkerModelsHandler deps ctx r).events = .LoadAll f :: rest) ∧
      (∀ g m, deps.LoadGroup (r.vars "permGroupName") = .ok g →
        deps.LoadByNameAndGroupID (r.vars "permModelName") g.ID = .ok m →
        ∃ rest, (getWorkerModelUsageHandler deps ctx r).events =
          .LoadGroup (r.vars "permGroupName") ::
          .LoadByNameAndGroupID (r.vars "permModelName") g.ID ::
          .LoadByWorkerModel m :: rest)) ∧
    ((ctx.isMaintainer || ctx.isAdmin) = false →
      (∀ f, Event.LoadAll f ∉ (getWorkerModelsHandler deps ctx r).events) ∧
      (∀ m, Event.LoadByWorkerModel m ∉ (getWorkerModelUsageHandler deps ctx r).events) ∧
      (∀ ids f, Event.LoadAllByGroupIDs ids f ∈ (getWorkerModelsHandler deps ctx r).events →
        ∀ i, i ∈ ids ↔ (∃ g ∈ ctx.consumer.Groups, g.ID = i) ∨ i = deps.SharedInfraGroup.ID) ∧
      (∀ m ids, Event.LoadByWorkerModelAndGroupIDs m ids ∈
          (getWorkerModelUsageHandler deps ctx r).events →
        ∀ i, i ∈ ids ↔ (∃ g ∈ ctx.consumer.Groups, g.ID = i) ∨ i = deps.SharedInfraGroup.ID) ∧
      (∀ f, r.ParseForm = none → listFilter deps r = .ok f →
        ∃ ids rest, (getWorkerModelsHandler deps ctx r).events =
          .LoadAllByGroupIDs ids f :: rest) ∧
      (∀ g m, deps.LoadGroup (r.vars "permGroupName") = .ok g →
        deps.LoadByNameAndGroupID (r.vars "permModelName") g.ID = .ok m →
        ∃ ids rest, (getWorkerModelUsageHandler deps ctx r).events =
          .LoadGroup (r.vars "permGroupName") ::
          .LoadByNameAndGroupID (r.vars "permModelName") g.ID ::
          .LoadByWorkerModelAndGroupIDs m ids :: rest)) := by
  have hmem : ∀ i, i ∈ GroupsToIDs ctx.consumer.Groups ++ [deps.SharedInfraGroup.ID] ↔
      (∃ g ∈ ctx.consumer.Groups, g.ID = i) ∨ i = deps.SharedInfraGroup.ID := by
    intro i
    simp [GroupsToIDs]
  have hL := list_shape deps ctx r
  have hU := usage_shape deps ctx r
  constructor
  · intro hpriv
    refine ⟨?_, ?_, ?_, ?_⟩
    · intro ids f hin
      rcases hL with ⟨e, he, _⟩ | ⟨f1, rest, _, _, _, hev, hrest⟩ | ⟨_, _, _, _, hp, _, _⟩
      · rw [he] at hin
        simp at hin
      · rw [hev] at hin
        simp only [List.mem_cons] at hin
        rcases hin with h | h
        · cases h
        · obtain ⟨p, st, h2⟩ := hrest _ h
          cases h2
      · rw [hpriv] at hp
        cases hp
    · intro m ids hin
      rcases hU with ⟨evs, e, he, _, hevs⟩ | ⟨g, m1, rest, _, _, _, hev, hrest⟩ |
        ⟨_, _, _, _, _, hp, _, _⟩
      · rw [he] at hin
        rcases hevs _ hin with ⟨n, h⟩ | ⟨n, i, h⟩ <;> cases h
      · rw [hev] at hin
        simp only [List.mem_cons] at hin
        rcases hin with h | h | h | h
        · cases h
        · cases h
        · cases h
        · obtain ⟨p, st, h2⟩ := hrest _ h
          cases h2
      · rw [hpriv] at hp
        cases hp
    · intro f hpf hf
      rcases hL with ⟨e, _, h | h⟩ | ⟨f1, rest, _, hf1, _, hev, _⟩ | ⟨_, _, _, _, hp, _, _⟩
      · exact absurd hpf h
      · rw [hf] at h
        cases h
      · rw [hf] at hf1
        cases hf1
        exact ⟨rest, hev⟩
      · rw [hpriv] at hp
        cases hp
    · intro g m hg hm
      rcases hU with ⟨evs, e, _, hno, _⟩ | ⟨g1, m1, rest, hg1, hm1, _, hev, _⟩ |
        ⟨_, _, _, _, _, hp, _, _⟩
      · exact absurd hm (hno g m hg)
      · rw [hg] at hg1
        cases hg1
        rw [hm] at hm1
        cases hm1
        exact ⟨rest, hev⟩
      · rw [hpriv] at hp
        cases hp
  · intro hpriv
    refine ⟨?_, ?_, ?_, ?_, ?_, ?_⟩
    · intro f hin
      rcases hL with ⟨e, he, _⟩ | ⟨_, _, _, _, hp, _, _⟩ | ⟨f1, rest, _, _, _, hev, hrest⟩
      · rw [he] at hin
        simp at hin
      · rw [hpriv] at hp
        cases hp
      · rw [hev] at hin
        simp only [List.mem_cons] at hin
        rcases hin with h | h
        · cases h
        · obtain ⟨p, st, h2⟩ := hrest _ h
          cases h2
    · intro m hin
      rcases hU with ⟨evs, e, he, _, hevs⟩ | ⟨_, _, _, _, _, hp, _, _⟩ |
        ⟨g, m1, rest, _, _, _, hev, hrest⟩
      · rw [he] at hin
        rcases hevs _ hin with ⟨n, h⟩ | ⟨n, i, h⟩ <;> cases h
      · rw [hpriv] at hp
        cases hp
      · rw [hev] at hin
        simp only [List.mem_cons] at hin
        rcases hin with h | h | h | h
        · cases h
        · cases h
        · cases h
        · obtain ⟨p, st, h2⟩ := hrest _ h
          cases h2
    · intro ids f hin
      rcases hL with ⟨e, he, _⟩ | ⟨_, _, _, _, hp, _, _⟩ | ⟨f1, rest, _, _, _, hev, hrest⟩
      · rw [he] at hin
        simp at hin
      · rw [hpriv] at hp
        cases hp
      · rw [hev] at hin
        simp only [List.mem_cons] at hin
        rcases hin with h | h
        · cases h
          exact hmem
        · obtain ⟨p, st, h2⟩ := hrest _ h
          cases h2
    · intro m ids hin
      rcases hU with ⟨evs, e, he, _, hevs⟩ | ⟨_, _, _, _, _, hp, _, _⟩ |
        ⟨g, m1, rest, _, _, _, hev, hrest⟩
      · rw [he] at hin
        rcases hevs _ hin with ⟨n, h⟩ | ⟨n, i, h⟩ <;> cases h
      · rw [hpriv] at hp
        cases hp
      · rw [hev] at hin
        simp only [List.mem_cons] at hin
        rcases hin with h | h | h | h
        · cases h
        · cases h
        · cases h
          exact hmem
        · obtain ⟨p, st, h2⟩ := hrest _ h
          cases h2
    · intro f hpf hf
      rcases hL with ⟨e, _, h | h⟩ | ⟨_, _, _, _, hp, _, _⟩ | ⟨f1, rest, _, hf1, _, hev, _⟩
      · exact absurd hpf h
      · rw [hf] at h
        cases h
      · rw [hpriv] at hp
        cases hp
      · rw [hf] at hf1
        cases hf1
        exact ⟨_, rest, hev⟩
    · intro g m hg hm
      rcases hU with ⟨evs, e, _, hno, _⟩ | ⟨_, _, _, _, _, hp, _, _⟩ |
        ⟨g1, m1, rest, hg1, hm1, _, hev, _⟩
      · exact absurd hm (hno g m hg)
      · rw [hpriv] at hp
        cases hp
      · rw [hg] at hg1
        cases hg1
        rw [hm] at hm1
        cases hm1
        exact ⟨_, rest, hev⟩

/-- Witness of C10: an ordinary member of group 1 lists the models and
the usage of the stored model; both loads are scoped to the group ids
`[1, SharedInfraGroup.ID]`. -/
theorem visible_groups_scope_witness :
    (∃ rest, (getWorkerModelsHandler specDeps memberCtx (requestWith storedModel)).events =
      .LoadAllByGroupIDs [1, 100] { Binary := "", State := "" } :: rest) ∧
    (∀ i, i ∈ [1, 100] ↔
      (∃ g ∈ memberCtx.consumer.Groups, g.ID = i) ∨ i = specDeps.SharedInfraGroup.ID) ∧
    (∀ m ids, Event.LoadByWorkerModelAndGroupIDs m ids ∈
        (getWorkerModelUsageHandler specDeps memberCtx (requestWith storedModel)).events →
      ∀ i, i ∈ ids ↔
        (∃ g ∈ memberCtx.consumer.Groups, g.ID = i) ∨ i = specDeps.SharedInfraGroup.ID) :=
  ⟨⟨_, rfl⟩,
   ((visible_groups_scope specDeps memberCtx (requestWith storedModel)).2 rfl).2.2.1
     [1, 100] { Binary := "", State := "" } (by decide),
   ((visible_groups_scope specDeps memberCtx (requestWith storedModel)).2 rfl).2.2.2.1⟩

end CDS
